import Mathlib

/-!
Verification of the GFS→Firebolt ingestion pipeline (`src/gfs_to_firebolt.py`)
against its natural-language specification.

The Python source is shallowly embedded: pure helpers become Lean functions,
the stateful pipeline driver becomes explicit state passing, network calls
become boolean oracles, and fallible steps return `Except`.
-/

namespace GfsToFirebolt

/-! ## Calendar dates

`datetime.date` values are embedded as year/month/day triples with proleptic
Gregorian calendar arithmetic; `timedelta(days=1)` subtraction becomes
`predDay`, addition becomes `succDay`. -/

structure Date where
  year : Nat
  month : Nat
  day : Nat
deriving DecidableEq, Repr

def isLeapYear (y : Nat) : Bool :=
  (y % 4 == 0 && y % 100 != 0) || (y % 400 == 0)

def daysInMonth (y m : Nat) : Nat :=
  if m = 2 then (if isLeapYear y then 29 else 28)
  else if m = 4 ∨ m = 6 ∨ m = 9 ∨ m = 11 then 30
  else 31

/-- A date is valid when its month and day lie in calendar range. -/
def ValidDate (d : Date) : Prop :=
  1 ≤ d.month ∧ d.month ≤ 12 ∧ 1 ≤ d.day ∧ d.day ≤ daysInMonth d.year d.month

instance (d : Date) : Decidable (ValidDate d) := by
  unfold ValidDate; infer_instance

/-- Model of `dt - timedelta(days=1)`: the previous calendar day. -/
def predDay (d : Date) : Date :=
  if 1 < d.day then ⟨d.year, d.month, d.day - 1⟩
  else if 1 < d.month then ⟨d.year, d.month - 1, daysInMonth d.year (d.month - 1)⟩
  else ⟨d.year - 1, 12, 31⟩

/-- Model of `dt + timedelta(days=1)`: the next calendar day. -/
def succDay (d : Date) : Date :=
  if d.day < daysInMonth d.year d.month then ⟨d.year, d.month, d.day + 1⟩
  else if d.month < 12 then ⟨d.year, d.month + 1, 1⟩
  else ⟨d.year + 1, 1, 1⟩

theorem daysInMonth_pos (y m : Nat) : 28 ≤ daysInMonth y m := by
  unfold daysInMonth
  split_ifs <;> omega

theorem daysInMonth_le (y m : Nat) : daysInMonth y m ≤ 31 := by
  unfold daysInMonth
  split_ifs <;> omega

theorem daysInMonth_twelve (y : Nat) : daysInMonth y 12 = 31 := rfl

theorem ValidDate.mk' {y m dd : Nat} (h1 : 1 ≤ m) (h2 : m ≤ 12) (h3 : 1 ≤ dd)
    (h4 : dd ≤ daysInMonth y m) : ValidDate ⟨y, m, dd⟩ := ⟨h1, h2, h3, h4⟩

theorem validDate_predDay {d : Date} (h : ValidDate d) : ValidDate (predDay d) := by
  obtain ⟨h1, h2, h3, h4⟩ := h
  unfold predDay
  split_ifs with hd hm
  · exact ValidDate.mk' h1 h2 (by omega) (by omega)
  · exact ValidDate.mk' (by omega) (by omega)
      (by have := daysInMonth_pos d.year (d.month - 1); omega) (le_refl _)
  · exact ValidDate.mk' (by omega) (by omega) (by omega) (by rw [daysInMonth_twelve])

/-! ## Decimal formatting

Models Python's `%Y` / `f"{n:02d}"` / `f"{n:03d}"` decimal rendering with a
fuel-based digit recursion (fuel `n` always suffices since `n / 10 < n`). -/

def decChar (n : Nat) : Char := Char.ofNat (48 + n)

def decDigitsAux : Nat → Nat → List Char
  | 0, _ => []
  | fuel + 1, n =>
    if n = 0 then [] else decDigitsAux fuel (n / 10) ++ [decChar (n % 10)]

/-- Decimal rendering of a natural number (model of CPython's `%d`). -/
def decRepr (n : Nat) : String :=
  if n = 0 then "0" else String.mk (decDigitsAux n n)

/-- Model of `f"{n:02d}"`: zero-pad to two digits. -/
def pad2 (n : Nat) : String :=
  if n < 10 then "0" ++ decRepr n else decRepr n

/-- Model of `f"{n:03d}"`: zero-pad to three digits. -/
def pad3 (n : Nat) : String :=
  if n < 10 then "00" ++ decRepr n
  else if n < 100 then "0" ++ decRepr n
  else decRepr n

/-- Model of `dt.strftime('%Y%m%d')` for four-digit years. -/
def formatYMD (d : Date) : String :=
  decRepr d.year ++ pad2 d.month ++ pad2 d.day

theorem decDigitsAux_zero (fuel : Nat) : decDigitsAux fuel 0 = [] := by
  cases fuel <;> simp [decDigitsAux]

theorem decDigitsAux_step {fuel n : Nat} (h1 : 1 ≤ n) (hf : 1 ≤ fuel) :
    decDigitsAux fuel n = decDigitsAux (fuel - 1) (n / 10) ++ [decChar (n % 10)] := by
  match fuel with
  | f + 1 => rw [decDigitsAux, if_neg (by omega)]; rfl

theorem decDigitsAux_len1 {n : Nat} (h1 : 1 ≤ n) (h2 : n < 10) :
    ∀ fuel, 1 ≤ fuel → (decDigitsAux fuel n).length = 1 := by
  intro fuel hf
  rw [decDigitsAux_step (by omega) (by omega)]
  have hdiv : n / 10 = 0 := by omega
  rw [hdiv, decDigitsAux_zero]
  rfl

theorem decDigitsAux_len2 {n : Nat} (h1 : 10 ≤ n) (h2 : n < 100) :
    ∀ fuel, 2 ≤ fuel → (decDigitsAux fuel n).length = 2 := by
  intro fuel hf
  rw [decDigitsAux_step (by omega) (by omega), List.length_append]
  rw [decDigitsAux_len1 (by omega) (by omega) (fuel - 1) (by omega)]
  rfl

theorem decDigitsAux_len3 {n : Nat} (h1 : 100 ≤ n) (h2 : n < 1000) :
    ∀ fuel, 3 ≤ fuel → (decDigitsAux fuel n).length = 3 := by
  intro fuel hf
  rw [decDigitsAux_step (by omega) (by omega), List.length_append]
  rw [decDigitsAux_len2 (by omega) (by omega) (fuel - 1) (by omega)]
  rfl

theorem decDigitsAux_len4 {n : Nat} (h1 : 1000 ≤ n) (h2 : n < 10000) :
    ∀ fuel, 4 ≤ fuel → (decDigitsAux fuel n).length = 4 := by
  intro fuel hf
  rw [decDigitsAux_step (by omega) (by omega), List.length_append]
  rw [decDigitsAux_len3 (by omega) (by omega) (fuel - 1) (by omega)]
  rfl

theorem decRepr_len4 {n : Nat} (h1 : 1000 ≤ n) (h2 : n ≤ 9999) :
    (decRepr n).length = 4 := by
  unfold decRepr
  rw [if_neg (by omega)]
  show (decDigitsAux n n).length = 4
  exact decDigitsAux_len4 h1 (by omega) n (by omega)

theorem decRepr_len1 {n : Nat} (h2 : n < 10) : (decRepr n).length = 1 := by
  unfold decRepr
  split_ifs with h
  · rfl
  · show (decDigitsAux n n).length = 1
    exact decDigitsAux_len1 (by omega) h2 n (by omega)

theorem decRepr_len2 {n : Nat} (h1 : 10 ≤ n) (h2 : n < 100) :
    (decRepr n).length = 2 := by
  unfold decRepr
  rw [if_neg (by omega)]
  show (decDigitsAux n n).length = 2
  exact decDigitsAux_len2 h1 h2 n (by omega)

theorem pad2_len {n : Nat} (h : n < 100) : (pad2 n).length = 2 := by
  unfold pad2
  split_ifs with h10
  · rw [String.length_append, decRepr_len1 h10]
    rfl
  · exact decRepr_len2 (by omega) h

/-! ## Cycle resolver (`gfs_nomads_url_for`, `find_latest_available_cycle`)

The HTTP probe (`requests.get(url, stream=True)` followed by the status
check) is embedded as a boolean oracle `probe : String → Bool`; `probe url =
true` models a 200 response, `false` models any non-200 status, timeout or
transport exception.  `now_utc - timedelta(hours=2)` cannot be modelled from
a wall clock, so the resolver takes the base datetime (date and hour) as an
argument. -/

def gfs_nomads_url_for (datetime_ymd : String) (cycle : String)
    (resolution : String) (forecast_hour : Nat) : String :=
  "https://nomads.ncep.noaa.gov/pub/data/nccf/com/gfs/prod/gfs." ++ datetime_ymd
    ++ "/" ++ cycle ++ "/atmos/gfs.t" ++ cycle ++ "z.pgrb2." ++ resolution
    ++ ".f" ++ pad3 forecast_hour

/-- The `order = [0, 6, 12, 18]` list inside `find_latest_available_cycle`. -/
def cycleOrder : List Nat := [0, 6, 12, 18]

/-- Embedding of the inner `previous_cycle(dt_utc, cycle_int)` helper:
step back exactly one run, rolling from 00 to the prior day's 18. -/
def previous_cycle (dt_utc : Date) (cycle_int : Nat) : Date × Nat :=
  if cycleOrder.indexOf cycle_int = 0 then (predDay dt_utc, 18)
  else (dt_utc, cycleOrder.getD (cycleOrder.indexOf cycle_int - 1) 0)

/-- Embedding of `candidate_cycle = 18 if hour >= 18 else 12 if hour >= 12
else 6 if hour >= 6 else 0`. -/
def initialCandidateCycle (hour : Nat) : Nat :=
  if hour ≥ 18 then 18 else if hour ≥ 12 then 12 else if hour ≥ 6 then 6 else 0

structure CycleResult where
  ymd : String
  cycle : String
  url : String
deriving DecidableEq, Repr

/-- The `for _ in range(attempts)` probe/backoff loop, with fuel standing for
the remaining iterations.  Alongside the result it returns the list of URLs
actually probed, in order.  When the fuel runs out the function returns the
current (post-backoff) candidate exactly as the source's final `return`
statement does. -/
def findCycleLoop (probe : String → Bool) (resolution : String) :
    Nat → Date → Nat → CycleResult × List String
  | 0, dt, c =>
    (⟨formatYMD dt, pad2 c, gfs_nomads_url_for (formatYMD dt) (pad2 c) resolution 0⟩, [])
  | fuel + 1, dt, c =>
    let ymd := formatYMD dt
    let cycle_str := pad2 c
    let url := gfs_nomads_url_for ymd cycle_str resolution 0
    if probe url then (⟨ymd, cycle_str, url⟩, [url])
    else
      let stepped := previous_cycle dt c
      let rest := findCycleLoop probe resolution fuel stepped.1 stepped.2
      (rest.1, url :: rest.2)

/-- Embedding of `find_latest_available_cycle`: six attempts starting from
the candidate cycle derived from the (lag-adjusted) base hour. -/
def find_latest_available_cycle (probe : String → Bool) (resolution : String)
    (base : Date) (baseHour : Nat) : CycleResult × List String :=
  findCycleLoop probe resolution 6 base (initialCandidateCycle baseHour)

/-- The member of `{0, 6, 12, 18}` immediately below `c`; written from the
spec sentence "the next-lower member of {00,06,12,18} on the same day" for
comparison against `previous_cycle`. -/
def nextLowerRun (c : Nat) : Nat :=
  if c = 18 then 12 else if c = 12 then 6 else 0

/-- C4: For every run-hour value in {00,06,12,18}, the previous-cycle step
function applied to run 00 yields the prior calendar day with run 18, and
applied to any other member yields the next-lower member of {00,06,12,18}
on the same day. -/
theorem previous_cycle_spec (d : Date) :
    previous_cycle d 0 = (predDay d, 18) ∧
    previous_cycle d 6 = (d, nextLowerRun 6) ∧
    previous_cycle d 12 = (d, nextLowerRun 12) ∧
    previous_cycle d 18 = (d, nextLowerRun 18) := by
  refine ⟨rfl, rfl, rfl, rfl⟩

/-- C5: the probe/backoff loop issues at most six probe attempts, whatever
the probe oracle does; in particular the loop terminates (it is a total
function), and when every probe fails it performs exactly six attempts. -/
theorem findCycleLoop_probe_bound (probe : String → Bool) (resolution : String)
    (base : Date) (baseHour : Nat) :
    (find_latest_available_cycle probe resolution base baseHour).2.length ≤ 6 ∧
    (find_latest_available_cycle (fun _ => false) resolution base baseHour).2.length = 6 := by
  constructor
  · show (findCycleLoop probe resolution 6 base (initialCandidateCycle baseHour)).2.length ≤ 6
    generalize initialCandidateCycle baseHour = c
    have key : ∀ fuel dt c, (findCycleLoop probe resolution fuel dt c).2.length ≤ fuel := by
      intro fuel
      induction fuel with
      | zero => intro dt c; simp [findCycleLoop]
      | succ n ih =>
        intro dt c
        rw [findCycleLoop]
        split_ifs with hp
        · simp
        · simpa using ih _ _
    exact key 6 base c
  · show (findCycleLoop (fun _ => false) resolution 6 base (initialCandidateCycle baseHour)).2.length = 6
    generalize initialCandidateCycle baseHour = c
    have key : ∀ fuel dt c, (findCycleLoop (fun _ => false) resolution fuel dt c).2.length = fuel := by
      intro fuel
      induction fuel with
      | zero => intro dt c; simp [findCycleLoop]
      | succ n ih =>
        intro dt c
        rw [findCycleLoop]
        simpa using ih _ _
    exact key 6 base c

/-- C3: concrete evaluation of the exhaustion path.  With every probe
failing and base datetime 2024-01-02T03Z (candidate run 00 on 2024-01-02),
the six probes target (20240102,00), (20240101,18), (20240101,12),
(20240101,06), (20240101,00), (20231231,18) — yet the function returns
(20231231, run 12), the candidate produced by the backoff that followed the
final attempt, which was never probed.  This contradicts the source's own
comment "If all checks failed, return the last attempted". -/
theorem find_latest_exhaustion_returns_unattempted_cycle :
    ((find_latest_available_cycle (fun _ => false) "0p25" ⟨2024, 1, 2⟩ 3).1.ymd
        = "20231231") ∧
    ((find_latest_available_cycle (fun _ => false) "0p25" ⟨2024, 1, 2⟩ 3).1.cycle
        = "12") ∧
    ((find_latest_available_cycle (fun _ => false) "0p25" ⟨2024, 1, 2⟩ 3).2.getLast?
        = some (gfs_nomads_url_for "20231231" "18" "0p25" 0)) ∧
    ((find_latest_available_cycle (fun _ => false) "0p25" ⟨2024, 1, 2⟩ 3).1.url
        ≠ gfs_nomads_url_for "20231231" "18" "0p25" 0) := by
  refine ⟨by decide, by decide, by decide, by decide⟩

/-! ### Well-formedness invariant of the resolver (C10) -/

/-- Loop invariant for the backoff recursion: the candidate date is a valid
calendar date whose year stays in four-digit range for the remaining number
of backoff steps (`fuel`).  After a year rollover the candidate sits at
December 31, so with `fuel + 1 ≤ day` no second rollover can occur. -/
def ResolverInv (fuel : Nat) (d : Date) : Prop :=
  ValidDate d ∧ d.year ≤ 9999 ∧
    (1001 ≤ d.year ∨ (1000 ≤ d.year ∧ d.month = 12 ∧ fuel + 1 ≤ d.day))

theorem resolverInv_year {fuel : Nat} {d : Date} (h : ResolverInv fuel d) :
    1000 ≤ d.year ∧ d.year ≤ 9999 := by
  obtain ⟨-, h2, h3⟩ := h
  rcases h3 with h3 | ⟨h3, -, -⟩ <;> exact ⟨by omega, h2⟩

theorem resolverInv_mono {fuel : Nat} {d : Date} (h : ResolverInv (fuel + 1) d) :
    ResolverInv fuel d := by
  obtain ⟨h1, h2, h3⟩ := h
  rcases h3 with h3 | ⟨ha, hb, hc⟩
  · exact ⟨h1, h2, Or.inl h3⟩
  · exact ⟨h1, h2, Or.inr ⟨ha, hb, by omega⟩⟩

theorem resolverInv_predDay {fuel : Nat} {d : Date} (hf : fuel ≤ 29)
    (h : ResolverInv (fuel + 1) d) : ResolverInv fuel (predDay d) := by
  obtain ⟨hv, h2, h3⟩ := h
  have hv' := validDate_predDay hv
  obtain ⟨m1, m2, d1, d2⟩ := hv
  rcases h3 with h3 | ⟨ha, hb, hc⟩
  · unfold predDay
    split_ifs with hd hm
    · exact ⟨by rw [predDay, if_pos hd] at hv'; exact hv', h2, Or.inl h3⟩
    · exact ⟨by rw [predDay, if_neg hd, if_pos hm] at hv'; exact hv', h2, Or.inl h3⟩
    · refine ⟨by rw [predDay, if_neg hd, if_neg hm] at hv'; exact hv', ?_, ?_⟩
      · show d.year - 1 ≤ 9999
        omega
      · exact Or.inr ⟨show 1000 ≤ d.year - 1 by omega, rfl, show fuel + 1 ≤ 31 by omega⟩
  · unfold predDay
    rw [if_pos (show 1 < d.day by omega)]
    refine ⟨ValidDate.mk' m1 m2 (by omega) (by omega), h2, ?_⟩
    exact Or.inr ⟨ha, hb, show fuel + 1 ≤ d.day - 1 by omega⟩

theorem previous_cycle_fst {d : Date} {c : Nat} :
    (previous_cycle d c).1 = predDay d ∨ (previous_cycle d c).1 = d := by
  unfold previous_cycle
  split_ifs <;> simp

theorem previous_cycle_mem {d : Date} {c : Nat} (hc : c ∈ cycleOrder) :
    (previous_cycle d c).2 ∈ cycleOrder := by
  simp only [cycleOrder, List.mem_cons, List.not_mem_nil, or_false] at hc
  rcases hc with rfl | rfl | rfl | rfl
  · show (18 : Nat) ∈ cycleOrder
    decide
  · show (0 : Nat) ∈ cycleOrder
    decide
  · show (6 : Nat) ∈ cycleOrder
    decide
  · show (12 : Nat) ∈ cycleOrder
    decide

theorem resolverInv_step {fuel : Nat} {d : Date} {c : Nat} (hf : fuel ≤ 29)
    (h : ResolverInv (fuel + 1) d) : ResolverInv fuel (previous_cycle d c).1 := by
  rcases previous_cycle_fst (d := d) (c := c) with he | he <;> rw [he]
  · exact resolverInv_predDay hf h
  · exact resolverInv_mono h

theorem formatYMD_len {d : Date} (hv : ValidDate d) (h1 : 1000 ≤ d.year)
    (h2 : d.year ≤ 9999) : (formatYMD d).length = 8 := by
  obtain ⟨m1, m2, d1, d2⟩ := hv
  have hd31 := daysInMonth_le d.year d.month
  unfold formatYMD
  rw [String.length_append, String.length_append, decRepr_len4 h1 h2,
    pad2_len (show d.month < 100 by omega), pad2_len (show d.day < 100 by omega)]

theorem pad2_mem_runs {c : Nat} (hc : c ∈ cycleOrder) :
    pad2 c ∈ ["00", "06", "12", "18"] := by
  simp only [cycleOrder, List.mem_cons, List.not_mem_nil, or_false] at hc
  rcases hc with rfl | rfl | rfl | rfl <;> decide

theorem initialCandidateCycle_mem (hour : Nat) :
    initialCandidateCycle hour ∈ cycleOrder := by
  unfold initialCandidateCycle
  split_ifs <;> decide

theorem findCycleLoop_wellformed (probe : String → Bool) (resolution : String) :
    ∀ fuel, fuel ≤ 30 → ∀ d c, ResolverInv fuel d → c ∈ cycleOrder →
      ((findCycleLoop probe resolution fuel d c).1.ymd.length = 8 ∧
        (findCycleLoop probe resolution fuel d c).1.cycle ∈ ["00", "06", "12", "18"] ∧
        (findCycleLoop probe resolution fuel d c).1.url =
          gfs_nomads_url_for (findCycleLoop probe resolution fuel d c).1.ymd
            (findCycleLoop probe resolution fuel d c).1.cycle resolution 0) := by
  intro fuel
  induction fuel with
  | zero =>
    intro _ d c hInv hc
    have hy := resolverInv_year hInv
    exact ⟨formatYMD_len hInv.1 hy.1 hy.2, pad2_mem_runs hc, rfl⟩
  | succ n ih =>
    intro hfe d c hInv hc
    rw [findCycleLoop]
    split_ifs with hp
    · have hy := resolverInv_year hInv
      exact ⟨formatYMD_len hInv.1 hy.1 hy.2, pad2_mem_runs hc, rfl⟩
    · exact ih (by omega) _ _ (resolverInv_step (by omega) hInv) (previous_cycle_mem hc)

/-- C10: every value returned by the cycle resolver — success or exhaustion —
has an 8-digit YYYYMMDD date, a run hour among "00"/"06"/"12"/"18", and a
probe URL equal to the URL builder applied to that date, that run hour, the
given resolution, and lead hour 0.  The base date (current UTC minus the
2-hour publication lag) is assumed to be a valid calendar date with a
four-digit year that is not year 1000 (so six backoff steps cannot leave
four-digit range). -/
theorem find_latest_available_cycle_wellformed (probe : String → Bool)
    (resolution : String) (base : Date) (baseHour : Nat)
    (hv : ValidDate base) (hy1 : 1001 ≤ base.year) (hy2 : base.year ≤ 9999) :
    ((find_latest_available_cycle probe resolution base baseHour).1.ymd.length = 8 ∧
      (find_latest_available_cycle probe resolution base baseHour).1.cycle
        ∈ ["00", "06", "12", "18"] ∧
      (find_latest_available_cycle probe resolution base baseHour).1.url =
        gfs_nomads_url_for
          (find_latest_available_cycle probe resolution base baseHour).1.ymd
          (find_latest_available_cycle probe resolution base baseHour).1.cycle
          resolution 0) := by
  exact findCycleLoop_wellformed probe resolution 6 (by omega) base
    (initialCandidateCycle baseHour) ⟨hv, hy2, Or.inl hy1⟩
    (initialCandidateCycle_mem baseHour)

/-- Witness for C10 at a concrete input: base date 2024-01-02, base hour 3,
all probes failing. -/
theorem find_latest_available_cycle_wellformed_witness :
    (ValidDate ⟨2024, 1, 2⟩ ∧ 1001 ≤ (2024 : Nat) ∧ (2024 : Nat) ≤ 9999) ∧
    ((find_latest_available_cycle (fun _ => false) "0p25" ⟨2024, 1, 2⟩ 3).1.ymd.length = 8 ∧
      (find_latest_available_cycle (fun _ => false) "0p25" ⟨2024, 1, 2⟩ 3).1.cycle
        ∈ ["00", "06", "12", "18"] ∧
      (find_latest_available_cycle (fun _ => false) "0p25" ⟨2024, 1, 2⟩ 3).1.url =
        gfs_nomads_url_for
          (find_latest_available_cycle (fun _ => false) "0p25" ⟨2024, 1, 2⟩ 3).1.ymd
          (find_latest_available_cycle (fun _ => false) "0p25" ⟨2024, 1, 2⟩ 3).1.cycle
          "0p25" 0) :=
  ⟨⟨by decide, by omega, by omega⟩,
    find_latest_available_cycle_wellformed (fun _ => false) "0p25" ⟨2024, 1, 2⟩ 3
      (by decide) (by decide) (by decide)⟩

/-! ## Warehouse loader: external-table binding (`create_firebolt_external_table`)

The warehouse catalog is embedded as an association list from external-table
name to the S3 prefix URL its definition points at.  `DROP EXTERNAL TABLE IF
EXISTS name` removes every binding of that name; `CREATE EXTERNAL TABLE IF
NOT EXISTS name ... URL = url ...` adds a binding only when none exists.
Whether each DDL statement executes successfully on the engine is an
oracle: `dropOk` for the DROP (whose exception the source swallows with
`try/except: pass`, leaving the catalog unchanged) and `createOk` for the
CREATE (whose exception the source catches to return `False`). -/

abbrev WarehouseCatalog := List (String × String)

def dropExternalTableIfExists (cat : WarehouseCatalog) (name : String) :
    WarehouseCatalog :=
  cat.filter (fun p => p.1 ≠ name)

def createExternalTableIfNotExists (cat : WarehouseCatalog) (name url : String) :
    WarehouseCatalog :=
  if (cat.lookup name).isSome then cat else (name, url) :: cat

/-- Embedding of `create_firebolt_external_table conn name s3_url`: attempt
to drop any existing external table of the same name — a drop failure is
swallowed (`except Exception: pass`), leaving the catalog as it was — then
run the `CREATE EXTERNAL TABLE IF NOT EXISTS` DDL; return `true` when the
CREATE statement executes (even if, because a stale table survived the
failed drop, the IF NOT EXISTS clause made it a no-op) and `false` (rather
than raising) when it fails.  The catalog after the call is returned
alongside. -/
def create_firebolt_external_table (cat : WarehouseCatalog) (name url : String)
    (dropOk createOk : Bool) : Bool × WarehouseCatalog :=
  let dropped := if dropOk then dropExternalTableIfExists cat name else cat
  if createOk then (true, createExternalTableIfNotExists dropped name url)
  else (false, dropped)

theorem mem_dropExternalTableIfExists {cat : WarehouseCatalog} {name : String}
    {e : String × String} (h : e ∈ dropExternalTableIfExists cat name) :
    e ∈ cat ∧ e.1 ≠ name := by
  unfold dropExternalTableIfExists at h
  have := List.of_mem_filter h
  exact ⟨List.mem_of_mem_filter h, by simpa using this⟩

theorem lookup_dropExternalTableIfExists (cat : WarehouseCatalog) (name : String) :
    ((dropExternalTableIfExists cat name).lookup name) = none := by
  rw [List.lookup_eq_none_iff]
  intro p hp
  have h2 := (mem_dropExternalTableIfExists hp).2
  exact bne_iff_ne.mpr (fun h => h2 h.symm)

/-- C2 counterexample: bind once successfully against prefix run1, then
bind again against prefix run2 with the DROP statement failing (its
exception is swallowed by the source's `except Exception: pass`).  The
stale table survives, so `CREATE EXTERNAL TABLE IF NOT EXISTS` is a silent
no-op: the second call still returns `true`, yet the reference points at
the first prefix and no binding to the second prefix exists — the stale
binding is silently reused.  This falsifies "running bindExternalStage
twice with the same name against two different prefixes leaves the
reference pointing only at the second prefix, with no stale binding
silently reused". -/
theorem create_firebolt_external_table_stale_reuse :
    (create_firebolt_external_table
        (create_firebolt_external_table [] "ext_gfs_points_staged"
          "s3://bkt/run1/" true true).2
        "ext_gfs_points_staged" "s3://bkt/run2/" false true).1 = true ∧
    ((create_firebolt_external_table
        (create_firebolt_external_table [] "ext_gfs_points_staged"
          "s3://bkt/run1/" true true).2
        "ext_gfs_points_staged" "s3://bkt/run2/" false true).2.lookup
      "ext_gfs_points_staged") = some "s3://bkt/run1/" ∧
    ("ext_gfs_points_staged", "s3://bkt/run2/") ∉
      (create_firebolt_external_table
        (create_firebolt_external_table [] "ext_gfs_points_staged"
          "s3://bkt/run1/" true true).2
        "ext_gfs_points_staged" "s3://bkt/run2/" false true).2 := by
  refine ⟨by decide, by decide, by decide⟩

/-- C2 amended: when the DROP statements execute successfully, binding the
external stage twice with the same name against two different prefixes
succeeds both times and leaves the catalog holding exactly one binding for
that name, pointing at the second prefix; and whenever the CREATE DDL fails
the call returns `false` (it does not raise) whether or not the drop
succeeded, leaving no binding of that name behind when the drop succeeded.
(When the swallowed DROP fails, the stale binding can instead be silently
reused — see the counterexample.) -/
theorem create_firebolt_external_table_rebind_amended (cat : WarehouseCatalog)
    (name url1 url2 : String) :
    (create_firebolt_external_table cat name url1 true true).1 = true ∧
    (create_firebolt_external_table
        (create_firebolt_external_table cat name url1 true true).2
        name url2 true true).1 = true ∧
    (∀ q, (name, q) ∈ (create_firebolt_external_table
        (create_firebolt_external_table cat name url1 true true).2
        name url2 true true).2 ↔ q = url2) ∧
    (∀ dropOk, (create_firebolt_external_table cat name url2 dropOk false).1 = false) ∧
    (∀ q, (name, q) ∉ (create_firebolt_external_table cat name url2 true false).2) := by
  refine ⟨rfl, rfl, ?_, fun dropOk => rfl, ?_⟩
  · intro q
    show (name, q) ∈ createExternalTableIfNotExists
        (dropExternalTableIfExists
          (create_firebolt_external_table cat name url1 true true).2 name)
        name url2 ↔ q = url2
    unfold createExternalTableIfNotExists
    rw [if_neg (by rw [lookup_dropExternalTableIfExists]; simp)]
    constructor
    · intro hmem
      rcases List.mem_cons.mp hmem with heq | hmem'
      · exact (Prod.mk.injEq _ _ _ _ ▸ heq).2
      · exact absurd rfl (mem_dropExternalTableIfExists hmem').2
    · intro hq
      subst hq
      exact List.mem_cons_self _ _
  · intro q hmem
    have hmem' : (name, q) ∈ dropExternalTableIfExists cat name := hmem
    exact (mem_dropExternalTableIfExists hmem').2 rfl

/-! ## Warehouse loader: transform-and-insert (`insert_from_external_table`)

The INSERT…SELECT statement is embedded as a pure function on staged rows.
SQL TIMESTAMP values are embedded as a date plus an hour-of-day;
`TRY_CAST(obs_date AS TIMESTAMP)` yields midnight of the staged date, and
`DATE_ADD('hour', k, ts)` adds `k` hours with day rollover.  SQL DOUBLE
arithmetic is embedded over `ℝ`; `COALESCE(col, 0)` on a nullable INT column
becomes `Option.getD 0`. -/

structure Timestamp where
  date : Date
  hour : Nat
deriving DecidableEq, Repr

/-- Shift a date by a signed number of days. -/
def shiftDate (d : Date) (k : Int) : Date :=
  if 0 ≤ k then succDay^[k.toNat] d else predDay^[(-k).toNat] d

/-- Model of `TRY_CAST(obs_date AS TIMESTAMP)` on a well-formed staged date:
midnight of that date. -/
def castDateToTimestamp (d : Date) : Timestamp := ⟨d, 0⟩

/-- Model of `DATE_ADD('hour', k, ts)`. -/
def date_add_hour (k : Int) (ts : Timestamp) : Timestamp :=
  let total : Int := (ts.hour : Int) + k
  ⟨shiftDate ts.date (total.ediv 24), (total.emod 24).toNat⟩

/-- Model of the SQL `ATAN2(y, x)` function (standard math convention). -/
noncomputable def atan2 (y x : ℝ) : ℝ :=
  if 0 < x then Real.arctan (y / x)
  else if x < 0 ∧ 0 ≤ y then Real.arctan (y / x) + Real.pi
  else if x < 0 then Real.arctan (y / x) - Real.pi
  else if 0 < y then Real.pi / 2
  else if y < 0 then -(Real.pi / 2)
  else 0

/-- One row of the external (staged) table, schema
`latitude DOUBLE, longitude DOUBLE, obs_date TIMESTAMP, obs_hour INT,
forecast_hour INT, wind_u DOUBLE, wind_v DOUBLE`; the two hour columns are
nullable (the source wraps them in COALESCE). -/
structure StagedRow where
  latitude : ℝ
  longitude : ℝ
  obs_date : Date
  obs_hour : Option Int
  forecast_hour : Option Int
  wind_u : ℝ
  wind_v : ℝ

/-- A GEOGRAPHY point `SRID=4326;POINT(lon lat)`: WKT stores longitude
first, then latitude. -/
structure Geography where
  lon : ℝ
  lat : ℝ

/-- One row of the destination table produced by the INSERT's SELECT list. -/
structure ForecastRow where
  forecast_ts : Timestamp
  wind_u : ℝ
  wind_v : ℝ
  wind_speed : ℝ
  wind_heading_rad : ℝ
  location : Geography

/-- The SELECT list of `insert_from_external_table`, applied to one staged
row. -/
noncomputable def insert_from_external_table_row (r : StagedRow) : ForecastRow :=
  { forecast_ts :=
      date_add_hour (r.obs_hour.getD 0 + r.forecast_hour.getD 0)
        (castDateToTimestamp r.obs_date)
    wind_u := r.wind_u
    wind_v := r.wind_v
    wind_speed := Real.sqrt (r.wind_u * r.wind_u + r.wind_v * r.wind_v)
    wind_heading_rad := atan2 r.wind_v r.wind_u
    location := ⟨r.longitude, r.latitude⟩ }

/-- Embedding of `insert_from_external_table`: the single statement selects
every staged row and computes the derived columns in one pass. -/
noncomputable def insert_from_external_table (rows : List StagedRow) :
    List ForecastRow :=
  rows.map insert_from_external_table_row

/-- The end-to-end example row of the spec: lat 40.0, lon −75.0, obs_date
2024-01-01, obs_hour 0, forecast_hour 3, wind_u 3, wind_v 4. -/
noncomputable def stagedRowExample : StagedRow :=
  ⟨40, -75, ⟨2024, 1, 1⟩, some 0, some 3, 3, 4⟩

/-- C1: the transform-and-insert statement computes, for every staged row,
`forecast_ts` as the staged date plus (obs_hour + forecast_hour) hours
(nulls coalesced to 0), `wind_speed` as `sqrt(wind_u² + wind_v²)`,
`wind_heading_rad` as `atan2(wind_v, wind_u)`, and a geography point from
(longitude, latitude) in that order; and the spec's example staged row
(lat 40, lon −75, 2024-01-01, hour 0, lead 3, u 3, v 4) yields
forecast_ts = 2024-01-01T03:00:00, wind_speed = 5, heading = atan2(4, 3),
and a point at (−75, 40). -/
theorem insert_from_external_table_transform :
    (∀ r : StagedRow,
      (insert_from_external_table_row r).forecast_ts =
        date_add_hour (r.obs_hour.getD 0 + r.forecast_hour.getD 0)
          (castDateToTimestamp r.obs_date) ∧
      (insert_from_external_table_row r).wind_speed =
        Real.sqrt (r.wind_u ^ 2 + r.wind_v ^ 2) ∧
      (insert_from_external_table_row r).wind_heading_rad = atan2 r.wind_v r.wind_u ∧
      (insert_from_external_table_row r).location = ⟨r.longitude, r.latitude⟩) ∧
    insert_from_external_table [stagedRowExample] =
      [insert_from_external_table_row stagedRowExample] ∧
    (insert_from_external_table_row stagedRowExample).forecast_ts =
      ⟨⟨2024, 1, 1⟩, 3⟩ ∧
    (insert_from_external_table_row stagedRowExample).wind_speed = 5 ∧
    (insert_from_external_table_row stagedRowExample).wind_heading_rad = atan2 4 3 ∧
    (insert_from_external_table_row stagedRowExample).location = ⟨-75, 40⟩ := by
  refine ⟨?_, rfl, by decide, ?_, rfl, rfl⟩
  · intro r
    refine ⟨rfl, ?_, rfl, rfl⟩
    show Real.sqrt (r.wind_u * r.wind_u + r.wind_v * r.wind_v) =
      Real.sqrt (r.wind_u ^ 2 + r.wind_v ^ 2)
    ring_nf
  · show Real.sqrt ((3 : ℝ) * 3 + 4 * 4) = 5
    have h : ((3 : ℝ) * 3 + 4 * 4) = 5 ^ 2 := by norm_num
    rw [h, Real.sqrt_sq (by norm_num : (0 : ℝ) ≤ 5)]

/-! ## Grid extractor: ordered outer join (`extract_wind_data_to_parquet`)

The two component series `ds['u10']` and `ds['v10']` are embedded as
association lists from a (latitude, longitude, time) coordinate to the
component value.  `pd.merge_ordered(df_u, df_v, on=['latitude',
'longitude', 'time'])` performs an outer join whose output rows are ordered
by the join keys, with a missing component materialised as null (`none`),
which is embedded below as sorted-key lookup. -/

structure Coord where
  latitude : ℚ
  longitude : ℚ
  time : ℤ
deriving DecidableEq, Repr

/-- Lexicographic order on (latitude, longitude, time), the key order used
by the ordered merge. -/
def coordLe (a b : Coord) : Prop :=
  a.latitude < b.latitude ∨
    (a.latitude = b.latitude ∧
      (a.longitude < b.longitude ∨
        (a.longitude = b.longitude ∧ a.time ≤ b.time)))

instance : DecidableRel coordLe := fun a b => by
  unfold coordLe; infer_instance

/-- Value of a series at a coordinate (`none` when the series has no record
there). -/
def lookupCoord (k : Coord) : List (Coord × ℚ) → Option ℚ
  | [] => none
  | (k', x) :: rest => if k' = k then some x else lookupCoord k rest

/-- The join keys: every coordinate present in either series, in key order. -/
def joinedKeys (u v : List (Coord × ℚ)) : List Coord :=
  ((u.map Prod.fst ++ v.map Prod.fst).dedup).insertionSort coordLe

/-- Embedding of `pd.merge_ordered(df_u, df_v, on=['latitude', 'longitude',
'time'])`: one output row per coordinate in either input, carrying the two
component values as nullable columns. -/
def merge_ordered (u v : List (Coord × ℚ)) :
    List (Coord × Option ℚ × Option ℚ) :=
  (joinedKeys u v).map (fun k => (k, lookupCoord k u, lookupCoord k v))

theorem lookupCoord_eq_none_iff {k : Coord} {l : List (Coord × ℚ)} :
    lookupCoord k l = none ↔ k ∉ l.map Prod.fst := by
  induction l with
  | nil => simp [lookupCoord]
  | cons p rest ih =>
    obtain ⟨k', x⟩ := p
    rw [lookupCoord]
    split_ifs with he
    · subst he
      simp
    · simp only [List.map_cons, List.mem_cons, not_or]
      rw [ih]
      constructor
      · exact fun h => ⟨fun hk => he hk.symm, h⟩
      · exact fun h => h.2

theorem lookupCoord_isSome_iff {k : Coord} {l : List (Coord × ℚ)} :
    (lookupCoord k l).isSome = true ↔ k ∈ l.map Prod.fst := by
  rcases ho : lookupCoord k l with - | x
  · simp only [Option.isSome_none, Bool.false_eq_true, false_iff]
    exact lookupCoord_eq_none_iff.mp ho
  · simp only [Option.isSome_some, true_iff]
    by_contra hk
    rw [← lookupCoord_eq_none_iff] at hk
    rw [ho] at hk
    exact Option.some_ne_none x hk

theorem mem_joinedKeys {u v : List (Coord × ℚ)} {k : Coord} :
    k ∈ joinedKeys u v ↔ k ∈ u.map Prod.fst ∨ k ∈ v.map Prod.fst := by
  unfold joinedKeys
  rw [List.mem_insertionSort, List.mem_dedup, List.mem_append]

/-- C6: the extractor's join is an ordered outer join on (latitude,
longitude, time): a coordinate appears in the joined output iff it appears
in either component series, and — for series with disjoint coordinate sets —
a record present in only one series keeps that component and carries the
other as absent (`none`), neither dropped nor zero. -/
theorem merge_ordered_outer_join (u v : List (Coord × ℚ))
    (hdisj : ∀ k ∈ u.map Prod.fst, k ∉ v.map Prod.fst) :
    (∀ k, (∃ e ∈ merge_ordered u v, e.1 = k) ↔
        (k ∈ u.map Prod.fst ∨ k ∈ v.map Prod.fst)) ∧
    (∀ e ∈ merge_ordered u v,
      (e.1 ∈ u.map Prod.fst → (e.2.1).isSome = true ∧ e.2.2 = none) ∧
      (e.1 ∈ v.map Prod.fst → e.2.1 = none ∧ (e.2.2).isSome = true)) := by
  constructor
  · intro k
    constructor
    · rintro ⟨e, he, rfl⟩
      unfold merge_ordered at he
      obtain ⟨k', hk', hek⟩ := List.mem_map.mp he
      rw [← hek]
      exact mem_joinedKeys.mp hk'
    · intro hk
      refine ⟨(k, lookupCoord k u, lookupCoord k v), ?_, rfl⟩
      unfold merge_ordered
      exact List.mem_map.mpr ⟨k, mem_joinedKeys.mpr hk, rfl⟩
  · intro e he
    unfold merge_ordered at he
    obtain ⟨k, hk, hek⟩ := List.mem_map.mp he
    subst hek
    constructor
    · intro hu
      exact ⟨lookupCoord_isSome_iff.mpr hu, lookupCoord_eq_none_iff.mpr (hdisj _ hu)⟩
    · intro hv
      have hnu : k ∉ u.map Prod.fst := fun hu => hdisj _ hu hv
      exact ⟨lookupCoord_eq_none_iff.mpr hnu, lookupCoord_isSome_iff.mpr hv⟩

/-- Witness for C6: two one-record series on disjoint coordinates. -/
theorem merge_ordered_outer_join_witness :
    (∀ k ∈ ([(⟨1, 2, 0⟩, 5)] : List (Coord × ℚ)).map Prod.fst,
        k ∉ ([(⟨3, 4, 0⟩, 7)] : List (Coord × ℚ)).map Prod.fst) ∧
    ((∀ k, (∃ e ∈ merge_ordered [(⟨1, 2, 0⟩, 5)] [(⟨3, 4, 0⟩, 7)], e.1 = k) ↔
        (k ∈ ([(⟨1, 2, 0⟩, 5)] : List (Coord × ℚ)).map Prod.fst ∨
          k ∈ ([(⟨3, 4, 0⟩, 7)] : List (Coord × ℚ)).map Prod.fst)) ∧
      (∀ e ∈ merge_ordered [(⟨1, 2, 0⟩, 5)] [(⟨3, 4, 0⟩, 7)],
        (e.1 ∈ ([(⟨1, 2, 0⟩, 5)] : List (Coord × ℚ)).map Prod.fst →
          (e.2.1).isSome = true ∧ e.2.2 = none) ∧
        (e.1 ∈ ([(⟨3, 4, 0⟩, 7)] : List (Coord × ℚ)).map Prod.fst →
          e.2.1 = none ∧ (e.2.2).isSome = true))) :=
  ⟨by intro k hk; simp only [List.map_cons, List.map_nil, List.mem_singleton] at hk ⊢;
      subst hk; decide,
    merge_ordered_outer_join _ _
      (by intro k hk; simp only [List.map_cons, List.map_nil, List.mem_singleton] at hk ⊢;
          subst hk; decide)⟩

/-! ## Pipeline driver (`main`)

The driver's observable state is the set of local files plus the sequence of
network events it has issued.  Local files are identified by the naming
conventions of the source: downloaded GRIBs `./grib_{dt}_{cycle}_{res}_{fh}
.grib2`, the index files cfgrib writes beside them (matched by the cleanup
glob `./grib_*.idx`), and staged parquet files `{dt}_{cycle}_{fh:03d}
.parquet`.  Network success/failure (`requests`, `boto3`, the Firebolt
connect and the CREATE DDL) are boolean oracles; a propagating Python
exception becomes an `Except.error` that aborts the run with outcome
`raised`. -/

inductive LocalFile where
  | grib (dt cyc res : String) (fh : Nat)
  | gribIdx (dt cyc res : String) (fh : Nat)
  | parquet (dt cyc : String) (fh : Nat)
  | other (name : String)
deriving DecidableEq, Repr

/-- Does a file match the cleanup globs `./grib_*.grib2` or `./grib_*.idx`? -/
def matchesGribCleanupPatterns : LocalFile → Bool
  | .grib _ _ _ _ => true
  | .gribIdx _ _ _ _ => true
  | _ => false

def isGribFile : LocalFile → Bool
  | .grib _ _ _ _ => true
  | _ => false

def isParquetFile : LocalFile → Bool
  | .parquet _ _ _ => true
  | _ => false

/-- Embedding of `cleanup_local_grib_files`: remove every local file
matching the raw-artifact patterns (removal errors are swallowed). -/
def cleanup_local_grib_files (files : List LocalFile) : List LocalFile :=
  files.filter (fun f => !matchesGribCleanupPatterns f)

inductive Event where
  | download (url : String)
  | upload (bucket key : String)
  | warehouseConnect
deriving DecidableEq, Repr

/-- The credential environment variables the pipeline reads. -/
structure EnvVars where
  firebolt_account : Option String
  firebolt_client_id : Option String
  firebolt_client_secret : Option String
  aws_access_key : Option String
  aws_secret_key : Option String

/-- Embedding of `get_firebolt_connection_from_env`: raise when
FIREBOLT_ACCOUNT is unset, raise when the client id/secret pair is
incomplete, otherwise attempt the connection (`connectOk` oracle). -/
def get_firebolt_connection_from_env (env : EnvVars) (connectOk : Bool) :
    Except String Unit :=
  match env.firebolt_account with
  | none => Except.error "FIREBOLT_ACCOUNT environment variable not set"
  | some _ =>
    match env.firebolt_client_id, env.firebolt_client_secret with
    | some _, some _ =>
      if connectOk then Except.ok ()
      else Except.error "Failed to connect to Firebolt using ClientCredentials"
    | _, _ =>
      Except.error "FIREBOLT_CLIENT_ID and FIREBOLT_CLIENT_SECRET environment variables not set"

inductive Outcome where
  | success
  | bindFailed
  | raised (msg : String)
deriving DecidableEq, Repr

structure DriverState where
  files : List LocalFile
  events : List Event
  parquets : List LocalFile
deriving DecidableEq, Repr

structure RunAbort where
  files : List LocalFile
  events : List Event
  msg : String
deriving DecidableEq, Repr

structure RunResult where
  files : List LocalFile
  events : List Event
  outcome : Outcome
deriving DecidableEq, Repr

/-- The `(date, cycle, forecast_hour)` iteration space of the download loop:
dates ascending, cycles ascending within a date, lead hours 0..5 within a
cycle. -/
def pipelineUnits (dates : List String) (cycles : List Nat) :
    List (String × Nat × Nat) :=
  dates.flatMap fun dt => cycles.flatMap fun c => (List.range 6).map fun fh => (dt, c, fh)

def unitUrl (res : String) (u : String × Nat × Nat) : String :=
  gfs_nomads_url_for u.1 (pad2 u.2.1) res u.2.2

def unitGrib (res : String) (u : String × Nat × Nat) : LocalFile :=
  .grib u.1 (pad2 u.2.1) res u.2.2

def unitIdx (res : String) (u : String × Nat × Nat) : LocalFile :=
  .gribIdx u.1 (pad2 u.2.1) res u.2.2

def unitParquet (u : String × Nat × Nat) : LocalFile :=
  .parquet u.1 (pad2 u.2.1) u.2.2

/-- One iteration of the download/extract loop: issue the download (a
network request; `requests.raise_for_status` propagates on failure), write
the GRIB, extract to parquet (cfgrib leaves an index file beside the GRIB),
record the parquet in `csv_paths`, and delete the GRIB. -/
def processUnit (res : String) (downloadOk : String → Bool)
    (st : DriverState) (u : String × Nat × Nat) : Except RunAbort DriverState :=
  let url := unitUrl res u
  let ev := st.events ++ [Event.download url]
  if downloadOk url then
    Except.ok
      ⟨((st.files ++ [unitGrib res u]) ++ [unitParquet u, unitIdx res u]).erase
          (unitGrib res u),
        ev, st.parquets ++ [unitParquet u]⟩
  else
    Except.error ⟨st.files, ev, "download failed"⟩

/-- One iteration of the staging-upload loop: attempt the S3 upload (boto3
raises on failure, aborting the run); on success delete the local parquet. -/
def uploadStep (uploadOk : LocalFile → Bool) (bucket base : String)
    (st : DriverState) (pq : LocalFile) : Except RunAbort DriverState :=
  let ev := st.events ++ [Event.upload bucket base]
  if uploadOk pq then Except.ok ⟨st.files.erase pq, ev, st.parquets⟩
  else Except.error ⟨st.files, ev, "upload failed"⟩

/-- Embedding of `main` past argument parsing, for an explicit date range:
download/extract every unit, upload every staged parquet, connect to the
warehouse, ensure the destination table, bind the external stage and — if
the bind succeeded — insert from it; the success and bind-failure exits both
run `cleanup_local_grib_files`, while a propagated exception aborts without
cleanup. -/
def mainPipeline (env : EnvVars) (res bucket base : String)
    (dates : List String) (cycles : List Nat)
    (downloadOk : String → Bool) (uploadOk : LocalFile → Bool)
    (connectOk dropOk createOk : Bool) (cat : WarehouseCatalog)
    (extName s3Url : String) (files0 : List LocalFile) : RunResult :=
  match (pipelineUnits dates cycles).foldlM (processUnit res downloadOk)
      ⟨files0, [], []⟩ with
  | .error a => ⟨a.files, a.events, .raised a.msg⟩
  | .ok st1 =>
    match st1.parquets.foldlM (uploadStep uploadOk bucket base) st1 with
    | .error a => ⟨a.files, a.events, .raised a.msg⟩
    | .ok st2 =>
      match get_firebolt_connection_from_env env connectOk with
      | .error msg => ⟨st2.files, st2.events, .raised msg⟩
      | .ok _ =>
        let ev := st2.events ++ [Event.warehouseConnect]
        match env.aws_access_key, env.aws_secret_key with
        | some _, some _ =>
          if (create_firebolt_external_table cat extName s3Url dropOk createOk).1 then
            ⟨cleanup_local_grib_files st2.files, ev, .success⟩
          else
            ⟨cleanup_local_grib_files st2.files, ev, .bindFailed⟩
        | _, _ =>
          ⟨st2.files, ev, .raised "Missing AWS credentials for external table"⟩

theorem mem_cleanup_local_grib_files {l : List LocalFile} {f : LocalFile}
    (h : f ∈ cleanup_local_grib_files l) : matchesGribCleanupPatterns f = false := by
  unfold cleanup_local_grib_files at h
  have := List.of_mem_filter h
  simpa using this

/-- C7: on both the successful exit and the external-stage-bind-failure exit
of the driver, `cleanup_local_grib_files` has run, so no local file matching
the run's raw-artifact naming convention (`./grib_*.grib2`, `./grib_*.idx`)
remains. -/
theorem cleanup_runs_on_success_and_bind_failure (env : EnvVars)
    (res bucket base : String) (dates : List String) (cycles : List Nat)
    (downloadOk : String → Bool) (uploadOk : LocalFile → Bool)
    (connectOk dropOk createOk : Bool) (cat : WarehouseCatalog)
    (extName s3Url : String) (files0 : List LocalFile)
    (h : (mainPipeline env res bucket base dates cycles downloadOk uploadOk
            connectOk dropOk createOk cat extName s3Url files0).outcome = Outcome.success ∨
      (mainPipeline env res bucket base dates cycles downloadOk uploadOk
            connectOk dropOk createOk cat extName s3Url files0).outcome = Outcome.bindFailed) :
    ∀ f ∈ (mainPipeline env res bucket base dates cycles downloadOk uploadOk
        connectOk dropOk createOk cat extName s3Url files0).files,
      matchesGribCleanupPatterns f = false := by
  intro f hf
  unfold mainPipeline at h hf
  rcases hd : (pipelineUnits dates cycles).foldlM (processUnit res downloadOk)
      ⟨files0, [], []⟩ with a | st1
  · simp only [hd] at h
    simp at h
  · simp only [hd] at h hf
    rcases hu : st1.parquets.foldlM (uploadStep uploadOk bucket base) st1 with a | st2
    · simp only [hu] at h
      simp at h
    · simp only [hu] at h hf
      rcases hc : get_firebolt_connection_from_env env connectOk with msg | u
      · simp only [hc] at h
        simp at h
      · simp only [hc] at h hf
        rcases hak : env.aws_access_key with - | ak
        · simp only [hak] at h
          simp at h
        · rcases hsk : env.aws_secret_key with - | sk
          · simp only [hak, hsk] at h
            simp at h
          · simp only [hak, hsk] at hf
            split_ifs at hf
            · exact mem_cleanup_local_grib_files hf
            · exact mem_cleanup_local_grib_files hf

/-- Witness for C7: a one-day, one-cycle run with every oracle succeeding
ends in `success` with no raw artifact left behind. -/
theorem cleanup_runs_on_success_and_bind_failure_witness :
    ((mainPipeline ⟨some "acct", some "id", some "secret", some "ak", some "sk"⟩
        "0p25" "bkt" "data/gfs" ["20240101"] [0] (fun _ => true) (fun _ => true)
        true true true [] "ext_gfs_points_staged" "s3://bkt/data/gfs/" []).outcome =
          Outcome.success ∨
      (mainPipeline ⟨some "acct", some "id", some "secret", some "ak", some "sk"⟩
        "0p25" "bkt" "data/gfs" ["20240101"] [0] (fun _ => true) (fun _ => true)
        true true true [] "ext_gfs_points_staged" "s3://bkt/data/gfs/" []).outcome =
          Outcome.bindFailed) ∧
    (∀ f ∈ (mainPipeline ⟨some "acct", some "id", some "secret", some "ak", some "sk"⟩
        "0p25" "bkt" "data/gfs" ["20240101"] [0] (fun _ => true) (fun _ => true)
        true true true [] "ext_gfs_points_staged" "s3://bkt/data/gfs/" []).files,
      matchesGribCleanupPatterns f = false) :=
  ⟨Or.inl (by decide),
    cleanup_runs_on_success_and_bind_failure _ _ _ _ _ _ _ _ _ _ _ _ _ _ _
      (Or.inl (by decide))⟩

/-- C8 counterexample: with FIREBOLT_ACCOUNT unset (and every other
credential present), a one-day run still performs its downloads and uploads
— network activity — and only then raises the missing-credential error at
the warehouse-connect step.  This falsifies "fails fast before any network
activity takes place". -/
theorem missing_account_raises_only_after_network :
    (mainPipeline ⟨none, some "id", some "secret", some "ak", some "sk"⟩
        "0p25" "bkt" "data/gfs" ["20240101"] [0] (fun _ => true) (fun _ => true)
        true true true [] "ext_gfs_points_staged" "s3://bkt/data/gfs/" []).outcome =
      Outcome.raised "FIREBOLT_ACCOUNT environment variable not set" ∧
    (mainPipeline ⟨none, some "id", some "secret", some "ak", some "sk"⟩
        "0p25" "bkt" "data/gfs" ["20240101"] [0] (fun _ => true) (fun _ => true)
        true true true [] "ext_gfs_points_staged" "s3://bkt/data/gfs/" []).events.head? =
      some (Event.download (gfs_nomads_url_for "20240101" "00" "0p25" 0)) ∧
    Event.upload "bkt" "data/gfs" ∈
      (mainPipeline ⟨none, some "id", some "secret", some "ak", some "sk"⟩
        "0p25" "bkt" "data/gfs" ["20240101"] [0] (fun _ => true) (fun _ => true)
        true true true [] "ext_gfs_points_staged" "s3://bkt/data/gfs/" []).events := by
  refine ⟨by decide, by decide, by decide⟩

theorem get_firebolt_connection_ok_creds {env : EnvVars} {connectOk : Bool}
    {u : Unit} (h : get_firebolt_connection_from_env env connectOk = Except.ok u) :
    env.firebolt_account ≠ none ∧ env.firebolt_client_id ≠ none ∧
      env.firebolt_client_secret ≠ none := by
  unfold get_firebolt_connection_from_env at h
  rcases ha : env.firebolt_account with - | a
  · rw [ha] at h
    exact absurd h (by simp)
  · rw [ha] at h
    rcases hi : env.firebolt_client_id with - | i <;>
      rcases hs : env.firebolt_client_secret with - | s <;>
      rw [hi, hs] at h
    · exact absurd h (by simp)
    · exact absurd h (by simp)
    · exact absurd h (by simp)
    · exact ⟨by simp [ha], by simp [hi], by simp [hs]⟩

/-- C8 amended: a missing required credential (warehouse account, client id,
client secret, or either storage access key) always ends the run in a raised
error — never a silent skip and never a completed load — but the check fires
only when the credential is first needed (after the download and upload
phases), not before network activity. -/
theorem missing_credentials_always_raise (env : EnvVars)
    (res bucket base : String) (dates : List String) (cycles : List Nat)
    (downloadOk : String → Bool) (uploadOk : LocalFile → Bool)
    (connectOk dropOk createOk : Bool) (cat : WarehouseCatalog)
    (extName s3Url : String) (files0 : List LocalFile)
    (hmiss : env.firebolt_account = none ∨ env.firebolt_client_id = none ∨
      env.firebolt_client_secret = none ∨ env.aws_access_key = none ∨
      env.aws_secret_key = none) :
    ∃ m, (mainPipeline env res bucket base dates cycles downloadOk uploadOk
        connectOk dropOk createOk cat extName s3Url files0).outcome = Outcome.raised m := by
  unfold mainPipeline
  rcases hd : (pipelineUnits dates cycles).foldlM (processUnit res downloadOk)
      ⟨files0, [], []⟩ with a | st1
  · simp only [hd]
    exact ⟨a.msg, rfl⟩
  · simp only [hd]
    rcases hu : st1.parquets.foldlM (uploadStep uploadOk bucket base) st1 with a | st2
    · simp only [hu]
      exact ⟨a.msg, rfl⟩
    · simp only [hu]
      rcases hc : get_firebolt_connection_from_env env connectOk with msg | u
      · simp only [hc]
        exact ⟨msg, rfl⟩
      · simp only [hc]
        obtain ⟨hacct, hid, hsecret⟩ := get_firebolt_connection_ok_creds hc
        rcases hak : env.aws_access_key with - | ak
        · simp only [hak]
          exact ⟨"Missing AWS credentials for external table", rfl⟩
        · rcases hsk : env.aws_secret_key with - | sk
          · simp only [hak, hsk]
            exact ⟨"Missing AWS credentials for external table", rfl⟩
          · exfalso
            rcases hmiss with h | h | h | h | h
            · exact hacct h
            · exact hid h
            · exact hsecret h
            · rw [hak] at h
              exact Option.some_ne_none ak h
            · rw [hsk] at h
              exact Option.some_ne_none sk h

/-- Witness for C8 (amended): the counterexample run, with FIREBOLT_ACCOUNT
unset, raises. -/
theorem missing_credentials_always_raise_witness :
    ∃ m, (mainPipeline ⟨none, some "id", some "secret", some "ak", some "sk"⟩
        "0p25" "bkt" "data/gfs" ["20240101"] [0] (fun _ => true) (fun _ => true)
        true true true [] "ext_gfs_points_staged" "s3://bkt/data/gfs/" []).outcome =
      Outcome.raised m :=
  missing_credentials_always_raise _ "0p25" "bkt" "data/gfs" ["20240101"] [0]
    (fun _ => true) (fun _ => true) true true true [] "ext_gfs_points_staged"
    "s3://bkt/data/gfs/" [] (Or.inl rfl)

/-- C9 counterexample: when the first upload attempt fails, the run aborts
with the propagated upload error and the staged parquet file is still
present locally — it is not deleted after the failed attempt.  This
falsifies "deleted immediately after its upload is attempted, whether or
not the upload succeeded". -/
theorem failed_upload_leaves_local_parquet :
    (mainPipeline ⟨some "acct", some "id", some "secret", some "ak", some "sk"⟩
        "0p25" "bkt" "data/gfs" ["20240101"] [0] (fun _ => true) (fun _ => false)
        true true true [] "ext_gfs_points_staged" "s3://bkt/data/gfs/" []).outcome =
      Outcome.raised "upload failed" ∧
    LocalFile.parquet "20240101" "00" 0 ∈
      (mainPipeline ⟨some "acct", some "id", some "secret", some "ak", some "sk"⟩
        "0p25" "bkt" "data/gfs" ["20240101"] [0] (fun _ => true) (fun _ => false)
        true true true [] "ext_gfs_points_staged" "s3://bkt/data/gfs/" []).files := by
  refine ⟨by decide, by decide⟩

theorem downloadFold_all_ok (res : String) (downloadOk : String → Bool)
    (hdl : ∀ u, downloadOk u = true) :
    ∀ (units : List (String × Nat × Nat)) (fs : List LocalFile)
      (ev : List Event) (ps : List LocalFile),
      (∀ f ∈ fs, isGribFile f = false) →
      units.foldlM (processUnit res downloadOk) ⟨fs, ev, ps⟩ =
        Except.ok
          ⟨fs ++ units.flatMap (fun u => [unitParquet u, unitIdx res u]),
            ev ++ units.map (fun u => Event.download (unitUrl res u)),
            ps ++ units.map unitParquet⟩ := by
  intro units
  induction units with
  | nil =>
    intro fs ev ps hfs
    simp
    rfl
  | cons u rest ih =>
    intro fs ev ps hfs
    rw [List.foldlM_cons]
    have hgrib : unitGrib res u ∉ fs := by
      intro hmem
      have := hfs _ hmem
      simp [unitGrib, isGribFile] at this
    have herase :
        ((fs ++ [unitGrib res u]) ++ [unitParquet u, unitIdx res u]).erase
            (unitGrib res u) = fs ++ [unitParquet u, unitIdx res u] := by
      rw [List.erase_append_left _ (by simp),
        List.erase_append_right _ hgrib, List.erase_cons_head]
      simp
    have hstep : processUnit res downloadOk ⟨fs, ev, ps⟩ u =
        Except.ok ⟨fs ++ [unitParquet u, unitIdx res u],
          ev ++ [Event.download (unitUrl res u)], ps ++ [unitParquet u]⟩ := by
      unfold processUnit
      rw [if_pos (by rw [hdl])]
      rw [herase]
    rw [hstep]
    show rest.foldlM (processUnit res downloadOk)
        ⟨fs ++ [unitParquet u, unitIdx res u],
          ev ++ [Event.download (unitUrl res u)], ps ++ [unitParquet u]⟩ = _
    rw [ih (fs ++ [unitParquet u, unitIdx res u])
      (ev ++ [Event.download (unitUrl res u)]) (ps ++ [unitParquet u])
      (by
        intro f hf
        rcases List.mem_append.mp hf with hl | hr
        · exact hfs f hl
        · rcases List.mem_cons.mp hr with rfl | hr'
          · rfl
          · rcases List.mem_singleton.mp hr' with rfl
            rfl)]
    simp [List.append_assoc]

theorem uploadFold_all_ok (uploadOk : LocalFile → Bool) (bucket base : String)
    (hup : ∀ f, uploadOk f = true) :
    ∀ (ps fs : List LocalFile) (ev : List Event) (qs : List LocalFile),
      ps.foldlM (uploadStep uploadOk bucket base) ⟨fs, ev, qs⟩ =
        Except.ok ⟨ps.foldl (fun l p => l.erase p) fs,
          ev ++ ps.map (fun _ => Event.upload bucket base), qs⟩ := by
  intro ps
  induction ps with
  | nil =>
    intro fs ev qs
    simp
    rfl
  | cons p rest ih =>
    intro fs ev qs
    rw [List.foldlM_cons]
    have hstep : uploadStep uploadOk bucket base ⟨fs, ev, qs⟩ p =
        Except.ok ⟨fs.erase p, ev ++ [Event.upload bucket base], qs⟩ := by
      unfold uploadStep
      rw [if_pos (by rw [hup])]
    rw [hstep]
    show rest.foldlM (uploadStep uploadOk bucket base)
        ⟨fs.erase p, ev ++ [Event.upload bucket base], qs⟩ = _
    rw [ih (fs.erase p) (ev ++ [Event.upload bucket base]) qs]
    simp [List.append_assoc]

theorem eraseFold_removes_parquets (res : String) :
    ∀ (units : List (String × Nat × Nat)) (fs : List LocalFile),
      (∀ f ∈ fs, isParquetFile f = false) →
      ∀ f ∈ (units.map unitParquet).foldl (fun l p => l.erase p)
          (fs ++ units.flatMap (fun u => [unitParquet u, unitIdx res u])),
        isParquetFile f = false := by
  intro units
  induction units with
  | nil =>
    intro fs hfs f hf
    simp only [List.map_nil, List.foldl_nil, List.flatMap_nil,
      List.append_nil] at hf
    exact hfs f hf
  | cons u rest ih =>
    intro fs hfs f hf
    rw [List.map_cons, List.foldl_cons, List.flatMap_cons] at hf
    have hpq : unitParquet u ∉ fs := by
      intro hmem
      have := hfs _ hmem
      simp [unitParquet, isParquetFile] at this
    have he : (fs ++ ([unitParquet u, unitIdx res u] ++
          rest.flatMap (fun u => [unitParquet u, unitIdx res u]))).erase
            (unitParquet u) =
        (fs ++ [unitIdx res u]) ++
          rest.flatMap (fun u => [unitParquet u, unitIdx res u]) := by
      rw [List.erase_append_right _ hpq]
      simp
    rw [he] at hf
    refine ih (fs ++ [unitIdx res u]) ?_ f hf
    intro g hg
    rcases List.mem_append.mp hg with hl | hr
    · exact hfs g hl
    · rcases List.mem_singleton.mp hr with rfl
      rfl

theorem mem_of_mem_cleanup {l : List LocalFile} {f : LocalFile}
    (h : f ∈ cleanup_local_grib_files l) : f ∈ l :=
  List.mem_of_mem_filter h

/-- C9 amended: a staged parquet file is deleted immediately after its
*successful* upload (the upload step's success branch removes exactly that
file), and consequently a run whose downloads and uploads all succeed leaves
no parquet file behind on any exit path, bounding local disk usage during
multi-day backfills.  A *failed* upload instead aborts the run with the
propagated error and leaves the file in place. -/
theorem parquet_deleted_after_successful_upload (env : EnvVars)
    (res bucket base : String) (dates : List String) (cycles : List Nat)
    (downloadOk : String → Bool) (uploadOk : LocalFile → Bool)
    (connectOk dropOk createOk : Bool) (cat : WarehouseCatalog)
    (extName s3Url : String) (files0 : List LocalFile)
    (hdl : ∀ u, downloadOk u = true) (hup : ∀ f, uploadOk f = true)
    (hfs0 : ∀ f ∈ files0, isParquetFile f = false ∧ isGribFile f = false) :
    (∀ (st : DriverState) (pq : LocalFile),
      uploadStep uploadOk bucket base st pq =
        Except.ok ⟨st.files.erase pq, st.events ++ [Event.upload bucket base],
          st.parquets⟩) ∧
    ∀ f ∈ (mainPipeline env res bucket base dates cycles downloadOk uploadOk
        connectOk dropOk createOk cat extName s3Url files0).files,
      isParquetFile f = false := by
  constructor
  · intro st pq
    unfold uploadStep
    rw [if_pos (by rw [hup])]
  · intro f hf
    unfold mainPipeline at hf
    rw [downloadFold_all_ok res downloadOk hdl (pipelineUnits dates cycles)
      files0 [] [] (fun g hg => (hfs0 g hg).2)] at hf
    simp only [List.nil_append] at hf
    rw [uploadFold_all_ok uploadOk bucket base hup] at hf
    have hnp : ∀ g ∈ ((pipelineUnits dates cycles).map unitParquet).foldl
        (fun l p => l.erase p)
        (files0 ++ (pipelineUnits dates cycles).flatMap
          (fun u => [unitParquet u, unitIdx res u])),
        isParquetFile g = false :=
      eraseFold_removes_parquets res (pipelineUnits dates cycles) files0
        (fun g hg => (hfs0 g hg).1)
    rcases hc : get_firebolt_connection_from_env env connectOk with msg | u
    · simp only [hc] at hf
      exact hnp f hf
    · simp only [hc] at hf
      rcases hak : env.aws_access_key with - | ak
      · simp only [hak] at hf
        exact hnp f hf
      · rcases hsk : env.aws_secret_key with - | sk
        · simp only [hak, hsk] at hf
          exact hnp f hf
        · simp only [hak, hsk] at hf
          split_ifs at hf
          · exact hnp f (mem_of_mem_cleanup hf)
          · exact hnp f (mem_of_mem_cleanup hf)

/-- Witness for C9 (amended): a one-day run with every oracle succeeding. -/
theorem parquet_deleted_after_successful_upload_witness :
    (∀ (st : DriverState) (pq : LocalFile),
      uploadStep (fun _ => true) "bkt" "data/gfs" st pq =
        Except.ok ⟨st.files.erase pq, st.events ++ [Event.upload "bkt" "data/gfs"],
          st.parquets⟩) ∧
    ∀ f ∈ (mainPipeline ⟨some "acct", some "id", some "secret", some "ak", some "sk"⟩
        "0p25" "bkt" "data/gfs" ["20240101"] [0] (fun _ => true) (fun _ => true)
        true true true [] "ext_gfs_points_staged" "s3://bkt/data/gfs/" []).files,
      isParquetFile f = false :=
  parquet_deleted_after_successful_upload
    ⟨some "acct", some "id", some "secret", some "ak", some "sk"⟩
    "0p25" "bkt" "data/gfs" ["20240101"] [0] (fun _ => true) (fun _ => true)
    true true true [] "ext_gfs_points_staged" "s3://bkt/data/gfs/" []
    (fun _ => rfl) (fun _ => rfl) (fun f hf => absurd hf (List.not_mem_nil f))

end GfsToFirebolt
